import Mathlib

/-!
Verification development for the openalex-ts client library.

The library converts loosely-typed JSON records of the OpenAlex API into
validated domain records (Work, Author and their sub-entities), and builds
two outbound query fragments: a field-selection clause and a filter clause.

This file gives a shallow embedding of the relevant source files:
  - lib/filter.ts        (the generic Filter builder)
  - lib/types/source.ts  (DehydratedSource schema)
  - lib/types/institution.ts, lib/types/author.ts
  - lib/types/work.ts    (Location, Authorship, OpenAccess, Concept, Work
                          schemas, parseWork, the field registry)
  - lib/index.ts         (select-clause construction)

JSON numbers are modelled as integers: every number occurring in the claims
under study is integral, and the embedded code performs no arithmetic that
could leave the integers.  JavaScript builtin behaviour (template-literal
stringification, Array.prototype.sort stability, String.prototype.trim,
Object truthiness, new Date on date-only strings, encodeURIComponent) is
modelled from its ECMA-262 documented semantics.
-/

namespace OpenAlex

/-! ## Generic helpers: JS string builtins -/

/-- JavaScript Array.prototype.join with a separator. -/
def joinSep (sep : String) : List String → String
  | [] => ""
  | [s] => s
  | s :: rest => s ++ sep ++ joinSep sep rest

/-- JavaScript String.prototype.trim: drop leading and trailing whitespace. -/
def jsTrim (s : String) : String :=
  String.mk (((s.data.dropWhile Char.isWhitespace).reverse.dropWhile
    Char.isWhitespace).reverse)

/-- Uppercase hexadecimal digit, as produced by encodeURIComponent. -/
def hexDigit (n : Nat) : Char :=
  if n < 10 then Char.ofNat (48 + n) else Char.ofNat (55 + n)

/-- UTF-8 bytes of a Unicode code point. -/
def utf8Bytes (n : Nat) : List Nat :=
  if n < 128 then [n]
  else if n < 2048 then [192 + n / 64, 128 + n % 64]
  else if n < 65536 then [224 + n / 4096, 128 + (n / 64) % 64, 128 + n % 64]
  else [240 + n / 262144, 128 + (n / 4096) % 64, 128 + (n / 64) % 64, 128 + n % 64]

/-- The characters encodeURIComponent leaves unescaped (ECMA-262
uriUnescaped: alphanumeric plus - _ . ! ~ * apostrophe ( ) ). -/
def uriUnescaped (c : Char) : Bool :=
  c.isAlphanum || c = '-' || c = '_' || c = '.' || c = '!' || c = '~' ||
    c = '*' || c.toNat = 39 || c = '(' || c = ')'

/-- ECMA-262 encodeURIComponent. -/
def encodeURIComponent (s : String) : String :=
  String.mk (s.data.flatMap fun c =>
    if uriUnescaped c then [c]
    else (utf8Bytes c.toNat).flatMap fun b => ['%', hexDigit (b / 16), hexDigit (b % 16)])

/-! ## lib/filter.ts: the generic Filter builder

`type FilterValue = string | number | boolean`,
`type Operator = "!" | ">" | "<" | ""`, a `FilterCondition` record, and a
`Filter` class holding a private ordered list of conditions. -/

inductive FilterValue where
  | str (s : String)
  | num (n : Int)
  | bool (b : Bool)
deriving DecidableEq

/-- JS template-literal stringification of a FilterValue. -/
def FilterValue.render : FilterValue → String
  | .str s => s
  | .num n => toString n
  | .bool b => if b then "true" else "false"

inductive Operator where
  | eq
  | neg
  | gt
  | lt
deriving DecidableEq

/-- The operator as the TS string literal it is. -/
def Operator.render : Operator → String
  | .eq => ""
  | .neg => "!"
  | .gt => ">"
  | .lt => "<"

/-- `value: FilterValue | FilterValue[]`. -/
def FilterValueArg := Sum FilterValue (List FilterValue)
deriving DecidableEq

structure FilterCondition where
  field : String
  value : FilterValueArg
  operator : Operator
deriving DecidableEq

structure Filter where
  filters : List FilterCondition
deriving DecidableEq

/-- The fresh builder: `protected filters: FilterCondition[] = []`. -/
def Filter.empty : Filter := ⟨[]⟩

/-- `add(field, value, operator = "")` pushes one condition. -/
def Filter.add (f : Filter) (field : String) (value : FilterValueArg)
    (operator : Operator) : Filter :=
  ⟨f.filters ++ [⟨field, value, operator⟩]⟩

/-- The arrow function inside `build`: one condition serialized.  A list
value repeats the operator before every element and joins with a bar; a
scalar value is `field:opvalue`. -/
def serializeCondition (c : FilterCondition) : String :=
  match c.value with
  | .inr vs => c.field ++ ":" ++ joinSep "|" (vs.map fun v => c.operator.render ++ v.render)
  | .inl v => c.field ++ ":" ++ c.operator.render ++ v.render

/-- `build()`: conditions serialized and comma-joined in insertion order. -/
def Filter.build (f : Filter) : String :=
  joinSep "," (f.filters.map serializeCondition)

/-- `toString()`: the full fragment. -/
def Filter.toString (f : Filter) : String :=
  "filter=" ++ f.build

/-- A sequence of `add` calls applied to a builder. -/
def Filter.applyAdds (f : Filter) (cs : List FilterCondition) : Filter :=
  cs.foldl (fun acc c => acc.add c.field c.value c.operator) f

/-- `add` as a method call in an explicit-state reading: the pair is
(returned value, state of the receiver after the call); the body mutates
the receiver and returns `this`, so both components are the updated
builder. -/
def Filter.addCall (field : String) (value : FilterValueArg) (operator : Operator)
    (s : Filter) : Filter × Filter :=
  (s.add field value operator, s.add field value operator)

/-- `toString` as a method call in the same explicit-state reading: the
body only reads the condition list, so the receiver state is returned
unchanged. -/
def Filter.toStringCall (s : Filter) : String × Filter :=
  (s.toString, s)

/-! ## JavaScript Date on date-only strings

`new Date("YYYY-MM-DD")` (ECMA-262 Date Time String Format, date-only
form): the string denotes midnight UTC of that calendar day, and the
resulting Date holds the time value in milliseconds since the Unix epoch;
an out-of-range component makes an Invalid Date (`none` here).  The
getUTCFullYear / getUTCMonth / getUTCDate accessors recompute the civil
date from the time value using UTC day boundaries; no local time-zone
offset enters.  The civil/day conversions use a proleptic Gregorian
calendar with March-based years, carried out in Nat after shifting the
year by +400 so all intermediate values stay nonnegative for four-digit
years. -/

/-- Gregorian leap year. -/
def isLeap (y : Nat) : Bool :=
  y % 4 = 0 && (y % 100 ≠ 0 || y % 400 = 0)

/-- Days in a month of the Gregorian calendar (m in 1..12). -/
def daysInMonth (y m : Nat) : Nat :=
  if m = 2 then (if isLeap y then 29 else 28)
  else if m = 4 || m = 6 || m = 9 || m = 11 then 30
  else 31

/-- March-based month index: March is 0, February is 11. -/
def monthAdj (m : Nat) : Nat :=
  if m > 2 then m - 3 else m + 9

/-- The year, shifted by +400 and moved to the March-based frame (January
and February belong to the previous frame year). -/
def shiftedYear (y m : Nat) : Nat :=
  if m ≤ 2 then y + 399 else y + 400

/-- The March-based day of the frame year of a calendar day d of month m
(mp = monthAdj m). -/
def frameDoy (mp d : Nat) : Nat :=
  (153 * mp + 2) / 5 + d - 1

/-- Day count within an era (a 400-year cycle) of day doy of frame year
yoe. -/
def doeOfCivil (yoe doy : Nat) : Nat :=
  365 * yoe + yoe / 4 - yoe / 100 + doy

/-- Day count of a calendar date in the shifted frame: days since
March 1st of frame year 0 (i.e. of civil year -400). -/
def daysFromCivilShifted (y m d : Nat) : Nat :=
  shiftedYear y m / 400 * 146097 +
    doeOfCivil (shiftedYear y m % 400) (frameDoy (monthAdj m) d)

/-- Days between the shifted frame epoch and the Unix epoch:
`daysFromCivilShifted 1970 1 1`. -/
def epochShift : Nat := 865565

/-- The frame year within an era of a day count within the era. -/
def yoeOfDoe (doe : Nat) : Nat :=
  (doe - doe / 1460 + doe / 36524 - doe / 146096) / 365

/-- The day of the frame year of a day count within an era. -/
def doyOfDoe (doe : Nat) : Nat :=
  doe - (365 * yoeOfDoe doe + yoeOfDoe doe / 4 - yoeOfDoe doe / 100)

/-- The March-based month index of a day count within an era. -/
def mpOfDoe (doe : Nat) : Nat :=
  (5 * doyOfDoe doe + 2) / 153

/-- The day of month of a day count within an era. -/
def dayOfDoe (doe : Nat) : Nat :=
  doyOfDoe doe - (153 * mpOfDoe doe + 2) / 5 + 1

/-- The calendar month of a day count within an era. -/
def monthOfDoe (doe : Nat) : Nat :=
  if mpOfDoe doe < 10 then mpOfDoe doe + 3 else mpOfDoe doe - 9

/-- The number of days of frame month mp (February, mp = 11, counted at
its leap-year maximum; the exact leap constraint enters separately). -/
def frameMonthLen (mp : Nat) : Nat :=
  if mp = 1 ∨ mp = 3 ∨ mp = 6 ∨ mp = 8 then 30
  else if mp = 11 then 29
  else 31

/-- Inverse of `daysFromCivilShifted`: the civil date of a day count, with
the year still shifted by +400 (so the result year is civil year + 400). -/
def civilFromDaysShifted (n : Nat) : Nat × Nat × Nat :=
  ((if monthOfDoe (n % 146097) ≤ 2 then n / 146097 * 400 + yoeOfDoe (n % 146097) + 1
    else n / 146097 * 400 + yoeOfDoe (n % 146097)),
   monthOfDoe (n % 146097), dayOfDoe (n % 146097))

/-- Decimal value of a digit character. -/
def digitVal (c : Char) : Nat := c.toNat - 48

/-- A decimal digit character (code points 48-57). -/
def isDigitChar (c : Char) : Bool := 48 ≤ c.toNat && c.toNat ≤ 57

/-- Parse a date-only ISO-8601 string "YYYY-MM-DD"; `none` when the shape
or a component range is illegal (an Invalid Date in JS). -/
def parseDateOnly (s : String) : Option (Nat × Nat × Nat) :=
  match s.data with
  | [y1, y2, y3, y4, h1, m1, m2, h2, d1, d2] =>
    if isDigitChar y1 && isDigitChar y2 && isDigitChar y3 && isDigitChar y4 &&
        h1 = '-' && isDigitChar m1 && isDigitChar m2 && h2 = '-' &&
        isDigitChar d1 && isDigitChar d2 then
      let y := 1000 * digitVal y1 + 100 * digitVal y2 + 10 * digitVal y3 + digitVal y4
      let m := 10 * digitVal m1 + digitVal m2
      let d := 10 * digitVal d1 + digitVal d2
      if 1 ≤ m && m ≤ 12 && 1 ≤ d && d ≤ daysInMonth y m then some (y, m, d)
      else none
    else none
  | _ => none

/-- `new Date(s)` for a date-only string: milliseconds since the Unix
epoch of midnight UTC of that day; `none` is an Invalid Date.  (Other
ECMA-262 input formats are out of scope: the library only feeds the API's
date-only strings to the constructor.) -/
def jsNewDate (s : String) : Option Int :=
  (parseDateOnly s).map fun x =>
    86400000 * ((daysFromCivilShifted x.1 x.2.1 x.2.2 : Int) - (epochShift : Int))

/-- The (year+400, month, day) read from a time value at UTC day
boundaries. -/
def jsUTCComponents (t : Int) : Nat × Nat × Nat :=
  civilFromDaysShifted (Int.fdiv t 86400000 + (epochShift : Int)).toNat

/-- `getUTCFullYear`. -/
def getUTCFullYear (t : Int) : Int :=
  ((jsUTCComponents t).1 : Int) - 400

/-- `getUTCMonth`: zero-based. -/
def getUTCMonth (t : Int) : Nat :=
  (jsUTCComponents t).2.1 - 1

/-- `getUTCDate`: day of month. -/
def getUTCDate (t : Int) : Nat :=
  (jsUTCComponents t).2.2

/-- A JS Date value: `none` is an Invalid Date (NaN time value). -/
def JsDate := Option Int
deriving DecidableEq

/-! ## JSON values and zod-mini combinators

An already-decoded JSON value, as handed to `safeParse`.  Numbers are
modelled as integers (see the file comment).  An object is its ordered
field list; JSON.parse output has distinct keys, and `Object.entries`
iterates them in this order. -/

inductive Json where
  | null
  | bool (b : Bool)
  | num (n : Int)
  | str (s : String)
  | arr (xs : List Json)
  | obj (fields : List (String × Json))

/-- A zod validation issue.  zod reports a path-qualified issue list; for
this development one structured issue (the first failure) suffices, since
only success or failure of the whole parse is observable in the claims. -/
structure ParseError where
  path : List String
  message : String
deriving DecidableEq

/-- JS property access on a parsed object: the value under a key. -/
def getField : List (String × Json) → String → Option Json
  | [], _ => none
  | (k, v) :: rest, key => if k = key then some v else getField rest key

/-- The input must be an object (zod z.object). -/
def asObj : Json → Except ParseError (List (String × Json))
  | .obj fs => .ok fs
  | _ => .error ⟨[], "expected object"⟩

/-- z.string(). -/
def vStr : Json → Except ParseError String
  | .str s => .ok s
  | _ => .error ⟨[], "expected string"⟩

/-- z.number().  NaN never arises for integral JSON numbers. -/
def vNum : Json → Except ParseError Int
  | .num n => .ok n
  | _ => .error ⟨[], "expected number"⟩

/-- z.boolean(). -/
def vBool : Json → Except ParseError Bool
  | .bool b => .ok b
  | _ => .error ⟨[], "expected boolean"⟩

/-- z.union of string literals: the closed enum check. -/
def vStrEnum (lits : List String) : Json → Except ParseError String
  | .str s => if lits.contains s then .ok s else .error ⟨[], "invalid enum value"⟩
  | _ => .error ⟨[], "invalid enum value"⟩

/-- z.union of number literals. -/
def vNumEnum (lits : List Int) : Json → Except ParseError Int
  | .num n => if lits.contains n then .ok n else .error ⟨[], "invalid enum value"⟩
  | _ => .error ⟨[], "invalid enum value"⟩

/-- z.array(inner). -/
def vArrayOf {α : Type} (v : Json → Except ParseError α) :
    Json → Except ParseError (List α)
  | .arr xs => xs.mapM v
  | _ => .error ⟨[], "expected array"⟩

/-- z.record(z.string(), inner): ordered entries of the mapping. -/
def vRecordOf {α : Type} (v : Json → Except ParseError α) :
    Json → Except ParseError (List (String × α))
  | .obj fs => fs.mapM fun p => (v p.2).map fun a => (p.1, a)
  | _ => .error ⟨[], "expected record"⟩

/-- A required object field. -/
def reqField {α : Type} (fields : List (String × Json)) (key : String)
    (v : Json → Except ParseError α) : Except ParseError α :=
  match getField fields key with
  | none => .error ⟨[key], "required"⟩
  | some j => v j

/-- z.nullable(inner) on a required field: null becomes `none`; a missing
key is still a failure. -/
def nullableField {α : Type} (fields : List (String × Json)) (key : String)
    (v : Json → Except ParseError α) : Except ParseError (Option α) :=
  match getField fields key with
  | none => .error ⟨[key], "required"⟩
  | some .null => .ok none
  | some j => (v j).map some

/-- z.optional(inner): a missing key becomes `none`; a present null is fed
to the inner validator (and fails unless it accepts null). -/
def optionalField {α : Type} (fields : List (String × Json)) (key : String)
    (v : Json → Except ParseError α) : Except ParseError (Option α) :=
  match getField fields key with
  | none => .ok none
  | some j => (v j).map some

/-- z.nullish(inner): both a missing key and null become `none` (the
transforms collapse the two with `?? undefined` or truthiness guards). -/
def nullishField {α : Type} (fields : List (String × Json)) (key : String)
    (v : Json → Except ParseError α) : Except ParseError (Option α) :=
  match getField fields key with
  | none => .ok none
  | some .null => .ok none
  | some j => (v j).map some

/-- An optionally-signed run of decimal digits as an integer. -/
def decInt? (cs : List Char) : Option Int :=
  let digits (l : List Char) : Option Nat :=
    l.foldl (fun acc c => match acc with
      | some n => if c.isDigit then some (10 * n + digitVal c) else none
      | none => none) (some 0)
  match cs with
  | '-' :: rest => if rest = [] then none else (digits rest).map fun n => -(n : Int)
  | _ => if cs = [] then none else (digits cs).map fun n => (n : Int)

/-- z.coerce.number(): ECMAScript ToNumber, restricted to inputs with an
integral result (an empty or blank string is 0, a non-numeric string is
NaN and rejected by the number check; object inputs are modelled as
failures — the API never sends one for the single coerced field, ids.mag). -/
def coerceNumber : Json → Except ParseError Int
  | .num n => .ok n
  | .bool b => .ok (if b then 1 else 0)
  | .null => .ok 0
  | .str s =>
    let t := (s.data.dropWhile Char.isWhitespace).reverse.dropWhile Char.isWhitespace
    if t = [] then .ok 0
    else match decInt? t.reverse with
      | some n => .ok n
      | none => .error ⟨[], "expected number"⟩
  | _ => .error ⟨[], "expected number"⟩

/-! ## lib/types/source.ts: DehydratedSource -/

structure DehydratedSource where
  id : String
  displayName : String
  hostOrganizationId : Option String
  hostOrganizationName : Option String
  isCore : Bool
  isInDoaj : Bool
  isOA : Bool
  issn : Option (List String)
  issnL : Option String
  type : String
deriving DecidableEq

/-- The validated input of DehydratedSourceZchema's z.object step. -/
structure RawDehydratedSource where
  id : String
  display_name : String
  host_organization : Option String
  host_organization_name : Option String
  is_core : Bool
  is_in_doaj : Bool
  is_oa : Bool
  issn : Option (List String)
  issn_l : Option String
  type : String
deriving DecidableEq

/-- The closed literal set of DehydratedSource.type. -/
def sourceTypeLits : List String :=
  ["journal", "repository", "conference", "ebook", "platform", "book series",
   "metadata", "other"]

/-- The z.object step of DehydratedSourceZchema. -/
def validateRawDehydratedSource (j : Json) : Except ParseError RawDehydratedSource := do
  let fields ← asObj j
  let id ← reqField fields "id" vStr
  let display_name ← reqField fields "display_name" vStr
  let host_organization ← nullableField fields "host_organization" vStr
  let host_organization_name ← nullableField fields "host_organization_name" vStr
  let is_core ← reqField fields "is_core" vBool
  let is_in_doaj ← reqField fields "is_in_doaj" vBool
  let is_oa ← reqField fields "is_oa" vBool
  let issn ← nullableField fields "issn" (vArrayOf vStr)
  let issn_l ← nullableField fields "issn_l" vStr
  let type ← reqField fields "type" (vStrEnum sourceTypeLits)
  return { id, display_name, host_organization, host_organization_name,
           is_core, is_in_doaj, is_oa, issn, issn_l, type }

/-- The z.transform step of DehydratedSourceZchema: renames, `?? undefined`. -/
def dehydratedSourceTransform (data : RawDehydratedSource) : DehydratedSource :=
  { id := data.id
    displayName := data.display_name
    hostOrganizationId := data.host_organization
    hostOrganizationName := data.host_organization_name
    isCore := data.is_core
    isInDoaj := data.is_in_doaj
    isOA := data.is_oa
    issn := data.issn
    issnL := data.issn_l
    type := data.type }

/-- DehydratedSourceZchema: z.pipe of the object step and the transform. -/
def DehydratedSourceZchema (j : Json) : Except ParseError DehydratedSource :=
  (validateRawDehydratedSource j).map dehydratedSourceTransform

/-! ## lib/types/institution.ts: DehydratedInstitution -/

structure DehydratedInstitution where
  id : String
  displayName : String
  countryCode : Option String
  lineage : List String
  ror : String
  types : String
deriving DecidableEq

structure RawDehydratedInstitution where
  id : String
  display_name : String
  country_code : Option String
  lineage : List String
  ror : String
  type : String
deriving DecidableEq

/-- The closed literal set of DehydratedInstitution.type. -/
def institutionTypeLits : List String :=
  ["education", "archive", "government", "company", "nonprofit", "other",
   "healthcare", "facility", "funder"]

def validateRawDehydratedInstitution (j : Json) :
    Except ParseError RawDehydratedInstitution := do
  let fields ← asObj j
  let id ← reqField fields "id" vStr
  let display_name ← reqField fields "display_name" vStr
  let country_code ← nullableField fields "country_code" vStr
  let lineage ← reqField fields "lineage" (vArrayOf vStr)
  let ror ← reqField fields "ror" vStr
  let type ← reqField fields "type" (vStrEnum institutionTypeLits)
  return { id, display_name, country_code, lineage, ror, type }

def dehydratedInstitutionTransform (data : RawDehydratedInstitution) :
    DehydratedInstitution :=
  { id := data.id
    displayName := data.display_name
    countryCode := data.country_code
    lineage := data.lineage
    ror := data.ror
    types := data.type }

def DehydratedInstitutionZchema (j : Json) : Except ParseError DehydratedInstitution :=
  (validateRawDehydratedInstitution j).map dehydratedInstitutionTransform

/-! ## lib/types/author.ts: DehydratedAuthor -/

structure DehydratedAuthor where
  id : String
  displayName : String
  orcid : Option String
deriving DecidableEq

structure RawDehydratedAuthor where
  id : String
  display_name : String
  orcid : Option String
deriving DecidableEq

def validateRawDehydratedAuthor (j : Json) : Except ParseError RawDehydratedAuthor := do
  let fields ← asObj j
  let id ← reqField fields "id" vStr
  let display_name ← reqField fields "display_name" vStr
  let orcid ← optionalField fields "orcid" vStr
  return { id, display_name, orcid }

def dehydratedAuthorTransform (data : RawDehydratedAuthor) : DehydratedAuthor :=
  { id := data.id
    displayName := data.display_name
    orcid := data.orcid }

def DehydratedAuthorZchema (j : Json) : Except ParseError DehydratedAuthor :=
  (validateRawDehydratedAuthor j).map dehydratedAuthorTransform

/-! ## lib/types/work.ts: Location -/

structure Location where
  isOA : Bool
  isAccepted : Option Bool
  isPublished : Option Bool
  pdfUrl : Option String
  version : Option String
  source : Option DehydratedSource
deriving DecidableEq

structure RawLocation where
  is_oa : Bool
  is_accepted : Option Bool
  is_published : Option Bool
  pdf_url : Option String
  version : Option String
  source : Option DehydratedSource
deriving DecidableEq

/-- The closed literal set of Location.version. -/
def versionLits : List String := ["submittedVersion", "acceptedVersion", "publishedVersion"]

def validateRawLocation (j : Json) : Except ParseError RawLocation := do
  let fields ← asObj j
  let is_oa ← reqField fields "is_oa" vBool
  let is_accepted ← optionalField fields "is_accepted" vBool
  let is_published ← optionalField fields "is_published" vBool
  let pdf_url ← nullableField fields "pdf_url" vStr
  let version ← nullableField fields "version" (vStrEnum versionLits)
  let source ← nullableField fields "source" DehydratedSourceZchema
  return { is_oa, is_accepted, is_published, pdf_url, version, source }

/-- The Location transform: each optional member is assigned only when the
raw value passes a JS truthiness test (`!= null` for the booleans, plain
truthiness for the strings and the source object), so null, undefined and
the empty string all leave the member absent. -/
def locationTransform (data : RawLocation) : Location :=
  { isOA := data.is_oa
    isAccepted := data.is_accepted
    isPublished := data.is_published
    source := data.source
    pdfUrl := match data.pdf_url with
      | some s => if s = "" then none else some s
      | none => none
    version := match data.version with
      | some s => if s = "" then none else some s
      | none => none }

def LocationZchema (j : Json) : Except ParseError Location :=
  (validateRawLocation j).map locationTransform

/-! ## lib/types/work.ts: Authorship -/

structure Affiliation where
  rawAffiliation : String
  institutionIds : List String
deriving DecidableEq

structure Authorship where
  affiliation : List Affiliation
  author : DehydratedAuthor
  authorPosition : String
  institutions : List DehydratedInstitution
  rawAuthorName : String
  isCorresponding : Bool
deriving DecidableEq

structure RawAffiliation where
  raw_affiliation_string : String
  institution_ids : List String
deriving DecidableEq

structure RawAuthorship where
  affiliations : List RawAffiliation
  author : DehydratedAuthor
  author_position : String
  institutions : List DehydratedInstitution
  raw_author_name : String
  is_corresponding : Bool
deriving DecidableEq

/-- The closed literal set of Authorship.author_position. -/
def authorPositionLits : List String := ["first", "last", "middle"]

def validateRawAffiliation (j : Json) : Except ParseError RawAffiliation := do
  let fields ← asObj j
  let raw_affiliation_string ← reqField fields "raw_affiliation_string" vStr
  let institution_ids ← reqField fields "institution_ids" (vArrayOf vStr)
  return { raw_affiliation_string, institution_ids }

def validateRawAuthorship (j : Json) : Except ParseError RawAuthorship := do
  let fields ← asObj j
  let affiliations ← reqField fields "affiliations" (vArrayOf validateRawAffiliation)
  let author ← reqField fields "author" DehydratedAuthorZchema
  let author_position ← reqField fields "author_position" (vStrEnum authorPositionLits)
  let institutions ← reqField fields "institutions" (vArrayOf DehydratedInstitutionZchema)
  let raw_author_name ← reqField fields "raw_author_name" vStr
  let is_corresponding ← reqField fields "is_corresponding" vBool
  return { affiliations, author, author_position, institutions, raw_author_name,
           is_corresponding }

def authorshipTransform (data : RawAuthorship) : Authorship :=
  { affiliation := data.affiliations.map fun aff =>
      { rawAffiliation := aff.raw_affiliation_string
        institutionIds := aff.institution_ids }
    author := data.author
    authorPosition := data.author_position
    institutions := data.institutions
    rawAuthorName := data.raw_author_name
    isCorresponding := data.is_corresponding }

def AuthorshipZchema (j : Json) : Except ParseError Authorship :=
  (validateRawAuthorship j).map authorshipTransform

/-! ## lib/types/work.ts: OpenAccess -/

structure OpenAccess where
  isOA : Bool
  status : String
  url : Option String
  anyRepositoryHasFulltext : Bool
deriving DecidableEq

structure RawOpenAccess where
  is_oa : Bool
  oa_status : String
  oa_url : Option String
  any_repository_has_fulltext : Bool
deriving DecidableEq

/-- The closed literal set of OpenAccess.oa_status. -/
def oaStatusLits : List String := ["gold", "green", "bronze", "closed", "hybrid", "diamond"]

def validateRawOpenAccess (j : Json) : Except ParseError RawOpenAccess := do
  let fields ← asObj j
  let is_oa ← reqField fields "is_oa" vBool
  let oa_status ← reqField fields "oa_status" (vStrEnum oaStatusLits)
  let oa_url ← nullishField fields "oa_url" vStr
  let any_repository_has_fulltext ← reqField fields "any_repository_has_fulltext" vBool
  return { is_oa, oa_status, oa_url, any_repository_has_fulltext }

/-- The OpenAccess transform: `url` is assigned only when `data.oa_url` is
truthy, so null, undefined and the empty string leave it absent. -/
def openAccessTransform (data : RawOpenAccess) : OpenAccess :=
  { isOA := data.is_oa
    status := data.oa_status
    anyRepositoryHasFulltext := data.any_repository_has_fulltext
    url := match data.oa_url with
      | some s => if s = "" then none else some s
      | none => none }

def OpenAccessZchema (j : Json) : Except ParseError OpenAccess :=
  (validateRawOpenAccess j).map openAccessTransform

/-! ## lib/types/work.ts: DehydratedConcept -/

structure DehydratedConcept where
  displayName : String
  id : String
  level : Int
  wikiDataId : String
deriving DecidableEq

structure RawDehydratedConcept where
  display_name : String
  id : String
  level : Int
  wikidata : String
deriving DecidableEq

def validateRawDehydratedConcept (j : Json) : Except ParseError RawDehydratedConcept := do
  let fields ← asObj j
  let display_name ← reqField fields "display_name" vStr
  let id ← reqField fields "id" vStr
  let level ← reqField fields "level" (vNumEnum [0, 1, 2, 3, 4, 5])
  let wikidata ← reqField fields "wikidata" vStr
  return { display_name, id, level, wikidata }

def dehydratedConceptTransform (data : RawDehydratedConcept) : DehydratedConcept :=
  { displayName := data.display_name
    id := data.id
    level := data.level
    wikiDataId := data.wikidata }

def DehydratedConceptZchema (j : Json) : Except ParseError DehydratedConcept :=
  (validateRawDehydratedConcept j).map dehydratedConceptTransform

/-! ## Abstract reconstruction (the transform of WorkZchema)

`Object.entries(inv_index).flatMap(([word, indices]) => indices.map(
index => ({key: index, value: word}))).sort((a, b) => a.key - b.key)
.map(item => item.value).join(" ").trim()`.

`Array.prototype.sort` with a consistent comparator is a stable sort
(ECMA-262); a stable ascending sort is modelled by insertion sort, whose
output any stable sort must equal. -/

/-- The flattened (position, word) pairs, in entry iteration order. -/
def flattenIndex (entries : List (String × List Int)) : List (Int × String) :=
  entries.flatMap fun p => p.2.map fun i => (i, p.1)

/-- Insert before the first element with a key not below the new one: the
new element lands after every earlier element with an equal key. -/
def insertPair (x : Int × String) : List (Int × String) → List (Int × String)
  | [] => [x]
  | y :: ys => if x.1 ≤ y.1 then x :: y :: ys else y :: insertPair x ys

/-- Stable ascending sort by key. -/
def sortPairs : List (Int × String) → List (Int × String)
  | [] => []
  | x :: xs => insertPair x (sortPairs xs)

/-- The whole reconstruction chain. -/
def reconstructAbstract (entries : List (String × List Int)) : String :=
  jsTrim (joinSep " " ((sortPairs (flattenIndex entries)).map Prod.snd))

/-! ## lib/types/work.ts: Work -/

structure WorkIds where
  openalex : String
  doi : Option String
  pmid : Option String
  pmcid : Option String
  mag : Option Int
deriving DecidableEq

structure Apc where
  value : Int
  currency : String
  value_usd : Int
  provenance : Option String
deriving DecidableEq

structure RawBiblio where
  volume : Option String
  issue : Option String
  first_page : Option String
  last_page : Option String
deriving DecidableEq

structure Biblio where
  volume : Option String
  issue : Option String
  firstPage : Option String
  lastPage : Option String
deriving DecidableEq

structure CitationNormalizedPercentile where
  value : Int
  isInTop1Percent : Bool
  isInTop10Percent : Bool
deriving DecidableEq

structure RawCitationNormalizedPercentile where
  value : Int
  is_in_top_1_percent : Bool
  is_in_top_10_percent : Bool
deriving DecidableEq

structure YearCount where
  year : Int
  count : Int
deriving DecidableEq

structure Sdg where
  id : String
  display_name : String
  score : Int
deriving DecidableEq

/-- `{ score: number } & DehydratedConcept`: the intersection result, the
score merged with the concept fields (the transform spreads it flat). -/
structure WorkConcept where
  score : Int
  displayName : String
  id : String
  level : Int
  wikiDataId : String
deriving DecidableEq

structure Work where
  id : String
  title : String
  ids : WorkIds
  indexedIn : List String
  abztract : Option String
  authorships : Option (List Authorship)
  apcList : Option Apc
  apcPaid : Option Apc
  primaryLocation : Option Location
  bestOaLocation : Option Location
  locations : Option (List Location)
  openAccess : Option OpenAccess
  publicationDate : JsDate
  publicationYear : Int
  biblio : Option Biblio
  fwci : Option Int
  citationNormalizedPercentile : Option CitationNormalizedPercentile
  citationCount : Int
  citationCountByYear : Option (List YearCount)
  sdg : Option (List Sdg)
  fullTextSeachable : Bool
  concepts : Option (List WorkConcept)
deriving DecidableEq

/-- The closed literal set of the indexed_in elements. -/
def indexedInLits : List String := ["arxiv", "pubmed", "crossref", "doaj", "datacite"]

def validateWorkIds (j : Json) : Except ParseError WorkIds := do
  let fields ← asObj j
  let openalex ← reqField fields "openalex" vStr
  let doi ← optionalField fields "doi" vStr
  let pmid ← optionalField fields "pmid" vStr
  let pmcid ← optionalField fields "pmcid" vStr
  let mag ← optionalField fields "mag" coerceNumber
  return { openalex, doi, pmid, pmcid, mag }

def validateApc (provenanceLits : List String) (j : Json) : Except ParseError Apc := do
  let fields ← asObj j
  let value ← reqField fields "value" vNum
  let currency ← reqField fields "currency" vStr
  let value_usd ← reqField fields "value_usd" vNum
  let provenance ← optionalField fields "provenance" (vStrEnum provenanceLits)
  return { value, currency, value_usd, provenance }

def validateRawBiblio (j : Json) : Except ParseError RawBiblio := do
  let fields ← asObj j
  let volume ← nullableField fields "volume" vStr
  let issue ← nullableField fields "issue" vStr
  let first_page ← nullableField fields "first_page" vStr
  let last_page ← nullableField fields "last_page" vStr
  return { volume, issue, first_page, last_page }

def validateRawCnp (j : Json) : Except ParseError RawCitationNormalizedPercentile := do
  let fields ← asObj j
  let value ← reqField fields "value" vNum
  let is_in_top_1_percent ← reqField fields "is_in_top_1_percent" vBool
  let is_in_top_10_percent ← reqField fields "is_in_top_10_percent" vBool
  return { value, is_in_top_1_percent, is_in_top_10_percent }

def validateYearCount (j : Json) : Except ParseError YearCount := do
  let fields ← asObj j
  let year ← reqField fields "year" vNum
  let count ← reqField fields "count" vNum
  return { year, count }

def validateSdg (j : Json) : Except ParseError Sdg := do
  let fields ← asObj j
  let id ← reqField fields "id" vStr
  let display_name ← reqField fields "display_name" vStr
  let score ← reqField fields "score" vNum
  return { id, display_name, score }

/-- z.intersection(z.object({score}), DehydratedConceptZchema): both
schemas validate the same value and the results are merged. -/
def validateWorkConcept (j : Json) : Except ParseError WorkConcept := do
  let fields ← asObj j
  let score ← reqField fields "score" vNum
  let concept ← DehydratedConceptZchema j
  return { score
           displayName := concept.displayName
           id := concept.id
           level := concept.level
           wikiDataId := concept.wikiDataId }

/-- The validated input of WorkZchema's z.object step. -/
structure RawWork where
  id : String
  ids : WorkIds
  title : String
  indexed_in : List String
  abstract_inverted_index : Option (List (String × List Int))
  authorships : Option (List Authorship)
  apc_list : Option Apc
  apc_paid : Option Apc
  primary_location : Option Location
  best_oa_location : Option Location
  locations : Option (List Location)
  open_access : Option OpenAccess
  publication_date : String
  publication_year : Int
  biblio : Option RawBiblio
  fwci : Option Int
  citation_normalized_percentile : Option RawCitationNormalizedPercentile
  cited_by_count : Int
  citation_count_by_year : Option (List YearCount)
  sustainable_development_goals : Option (List Sdg)
  has_fulltext : Bool
  concepts : Option (List WorkConcept)
deriving DecidableEq

def validateRawWork (j : Json) : Except ParseError RawWork := do
  let fields ← asObj j
  let id ← reqField fields "id" vStr
  let ids ← reqField fields "ids" validateWorkIds
  let title ← reqField fields "title" vStr
  let indexed_in ← reqField fields "indexed_in" (vArrayOf (vStrEnum indexedInLits))
  let abstract_inverted_index ←
    nullishField fields "abstract_inverted_index" (vRecordOf (vArrayOf vNum))
  let authorships ← optionalField fields "authorships" (vArrayOf AuthorshipZchema)
  let apc_list ← nullishField fields "apc_list" (validateApc ["doaj"])
  let apc_paid ← nullishField fields "apc_paid" (validateApc ["doaj", "openapc"])
  let primary_location ← nullishField fields "primary_location" LocationZchema
  let best_oa_location ← nullishField fields "best_oa_location" LocationZchema
  let locations ← optionalField fields "locations" (vArrayOf LocationZchema)
  let open_access ← optionalField fields "open_access" OpenAccessZchema
  let publication_date ← reqField fields "publication_date" vStr
  let publication_year ← reqField fields "publication_year" vNum
  let biblio ← optionalField fields "biblio" validateRawBiblio
  let fwci ← nullableField fields "fwci" vNum
  let citation_normalized_percentile ←
    nullishField fields "citation_normalized_percentile" validateRawCnp
  let cited_by_count ← reqField fields "cited_by_count" vNum
  let citation_count_by_year ←
    optionalField fields "citation_count_by_year" (vArrayOf validateYearCount)
  let sustainable_development_goals ←
    optionalField fields "sustainable_development_goals" (vArrayOf validateSdg)
  let has_fulltext ← reqField fields "has_fulltext" vBool
  let concepts ← optionalField fields "concepts" (vArrayOf validateWorkConcept)
  return { id, ids, title, indexed_in, abstract_inverted_index, authorships,
           apc_list, apc_paid, primary_location, best_oa_location, locations,
           open_access, publication_date, publication_year, biblio, fwci,
           citation_normalized_percentile, cited_by_count, citation_count_by_year,
           sustainable_development_goals, has_fulltext, concepts }

/-- The biblio assembly of the transform: `work.biblio` starts absent and
each of volume, first_page, last_page, issue is copied only when truthy
(non-null, non-empty). -/
def buildBiblio (b : Option RawBiblio) : Option Biblio :=
  match b with
  | none => none
  | some raw =>
    let keep (s : Option String) : Option String :=
      match s with
      | some v => if v = "" then none else some v
      | none => none
    match keep raw.volume, keep raw.first_page, keep raw.last_page, keep raw.issue with
    | none, none, none, none => none
    | v, f, l, i => some { volume := v, issue := i, firstPage := f, lastPage := l }

/-- The z.transform step of WorkZchema (lib/types/work.ts).  `undefined`
and null were collapsed during validation; the truthiness guards of the
source are the `if _ = "" / = 0` tests (an object or array value is always
truthy). -/
def workTransform (data : RawWork) : Work :=
  let abztract : Option String := data.abstract_inverted_index.map reconstructAbstract
  { id := data.id
    title := data.title
    ids := data.ids
    indexedIn := data.indexed_in
    authorships := data.authorships
    locations := data.locations
    openAccess := data.open_access
    publicationDate := jsNewDate data.publication_date
    citationCount := data.cited_by_count
    publicationYear := data.publication_year
    citationCountByYear := data.citation_count_by_year
    sdg := data.sustainable_development_goals
    fullTextSeachable := data.has_fulltext
    concepts := data.concepts.map fun cs => cs.map fun c => c
    abztract := match abztract with
      | some s => if s = "" then none else some s
      | none => none
    apcList := data.apc_list
    apcPaid := data.apc_paid
    primaryLocation := data.primary_location
    bestOaLocation := data.best_oa_location
    biblio := buildBiblio data.biblio
    fwci := match data.fwci with
      | some n => if n = 0 then none else some n
      | none => none
    citationNormalizedPercentile := data.citation_normalized_percentile.map fun cnp =>
      { value := cnp.value
        isInTop1Percent := cnp.is_in_top_1_percent
        isInTop10Percent := cnp.is_in_top_10_percent } }

def WorkZchema (j : Json) : Except ParseError Work :=
  (validateRawWork j).map workTransform

/-- `parseWork`: safeParse wrapped into the two-slot result
`[Work, undefined] | [undefined, Error]`. -/
def parseWork (data : Json) : Option Work × Option ParseError :=
  match WorkZchema data with
  | .ok w => (some w, none)
  | .error e => (none, some e)

/-! ## lib/types/work.ts: the field registry -/

/-- The closed excludable-field union `ExcludeWorkField`. -/
inductive ExcludeWorkField where
  | abstract_inverted_index
  | authorships
  | apc_list
  | apc_paid
  | primary_location
  | best_oa_location
  | locations
  | open_access
  | biblio
  | counts_by_year
  | sustainable_development_goals
  | concepts
deriving DecidableEq, Fintype

/-- The API field name of an excludable field (the TS literal itself). -/
def ExcludeWorkField.fieldName : ExcludeWorkField → String
  | .abstract_inverted_index => "abstract_inverted_index"
  | .authorships => "authorships"
  | .apc_list => "apc_list"
  | .apc_paid => "apc_paid"
  | .primary_location => "primary_location"
  | .best_oa_location => "best_oa_location"
  | .locations => "locations"
  | .open_access => "open_access"
  | .biblio => "biblio"
  | .counts_by_year => "counts_by_year"
  | .sustainable_development_goals => "sustainable_development_goals"
  | .concepts => "concepts"

/-- `ALL_WORK_FIELDS`, in its source order. -/
def ALL_WORK_FIELDS : List String :=
  ["id", "ids", "indexed_in", "abstract_inverted_index", "authorships",
   "apc_list", "apc_paid", "primary_location", "best_oa_location", "locations",
   "open_access", "publication_date", "publication_year", "biblio", "fwci",
   "citation_normalized_percentile", "cited_by_count", "counts_by_year",
   "sustainable_development_goals", "has_fulltext", "concepts", "title"]

/-! ## lib/types/author.ts: Author -/

structure AuthorIds where
  orcid : Option String
  wikipedia : Option String
  openalex : String
  scopus : Option String
  twitter : Option String
deriving DecidableEq

structure AuthorAffiliation where
  institution : DehydratedInstitution
  years : List Int
deriving DecidableEq

structure AuthorYearCounts where
  year : Int
  worksCount : Int
  citedByCount : Int
deriving DecidableEq

structure RawAuthorYearCounts where
  year : Int
  works_count : Int
  cited_by_count : Int
deriving DecidableEq

structure SummaryStats where
  twoYrMeanCitedness : Int
  hIndex : Int
  i10Index : Int
deriving DecidableEq

structure RawSummaryStats where
  two_yr_mean_citedness : Int
  h_index : Int
  i10_index : Int
deriving DecidableEq

structure Author where
  id : String
  ids : AuthorIds
  affiliations : Option (List AuthorAffiliation)
  citedByCount : Int
  worksCount : Int
  countsByYear : List AuthorYearCounts
  createdDate : Option JsDate
  displayName : String
  displayNameAlternatives : Option (List String)
  lastKnownInstitutions : Option (List DehydratedInstitution)
  orcid : Option String
  summaryStats : Option SummaryStats
  updatedDate : Option JsDate
  worksApiUrl : Option String
deriving DecidableEq

structure RawAuthorIds where
  orcid : Option String
  wikipedia : Option String
  openalex : String
  scopus : Option String
  twitter : Option String
deriving DecidableEq

structure RawAuthor where
  id : String
  ids : RawAuthorIds
  affiliations : Option (List AuthorAffiliation)
  cited_by_count : Int
  works_count : Int
  counts_by_year : List RawAuthorYearCounts
  created_date : Option String
  display_name : String
  display_name_alternatives : Option (List String)
  last_known_institutions : Option (List DehydratedInstitution)
  orcid : Option String
  summary_stats : Option RawSummaryStats
  updated_date : Option String
  works_api_url : Option String
deriving DecidableEq

def validateRawAuthorIds (j : Json) : Except ParseError RawAuthorIds := do
  let fields ← asObj j
  let orcid ← optionalField fields "orcid" vStr
  let wikipedia ← optionalField fields "wikipedia" vStr
  let openalex ← reqField fields "openalex" vStr
  let scopus ← optionalField fields "scopus" vStr
  let twitter ← optionalField fields "twitter" vStr
  return { orcid, wikipedia, openalex, scopus, twitter }

def validateAuthorAffiliation (j : Json) : Except ParseError AuthorAffiliation := do
  let fields ← asObj j
  let institution ← reqField fields "institution" DehydratedInstitutionZchema
  let years ← reqField fields "years" (vArrayOf vNum)
  return { institution, years }

def validateRawAuthorYearCounts (j : Json) : Except ParseError RawAuthorYearCounts := do
  let fields ← asObj j
  let year ← reqField fields "year" vNum
  let works_count ← reqField fields "works_count" vNum
  let cited_by_count ← reqField fields "cited_by_count" vNum
  return { year, works_count, cited_by_count }

def validateRawSummaryStats (j : Json) : Except ParseError RawSummaryStats := do
  let fields ← asObj j
  let two_yr_mean_citedness ← reqField fields "2yr_mean_citedness" vNum
  let h_index ← reqField fields "h_index" vNum
  let i10_index ← reqField fields "i10_index" vNum
  return { two_yr_mean_citedness, h_index, i10_index }

def validateRawAuthor (j : Json) : Except ParseError RawAuthor := do
  let fields ← asObj j
  let id ← reqField fields "id" vStr
  let ids ← reqField fields "ids" validateRawAuthorIds
  let affiliations ← optionalField fields "affiliations" (vArrayOf validateAuthorAffiliation)
  let cited_by_count ← reqField fields "cited_by_count" vNum
  let works_count ← reqField fields "works_count" vNum
  let counts_by_year ← reqField fields "counts_by_year" (vArrayOf validateRawAuthorYearCounts)
  let created_date ← optionalField fields "created_date" vStr
  let display_name ← reqField fields "display_name" vStr
  let display_name_alternatives ← optionalField fields "display_name_alternatives" (vArrayOf vStr)
  let last_known_institutions ←
    optionalField fields "last_known_institutions" (vArrayOf DehydratedInstitutionZchema)
  let orcid ← optionalField fields "orcid" vStr
  let summary_stats ← optionalField fields "summary_stats" validateRawSummaryStats
  let updated_date ← optionalField fields "updated_date" vStr
  let works_api_url ← optionalField fields "works_api_url" vStr
  return { id, ids, affiliations, cited_by_count, works_count, counts_by_year,
           created_date, display_name, display_name_alternatives,
           last_known_institutions, orcid, summary_stats, updated_date,
           works_api_url }

/-- The guard `if (s)` on an optional string: kept only when truthy. -/
def keepTruthy (s : Option String) : Option String :=
  match s with
  | some v => if v = "" then none else some v
  | none => none

/-- The z.transform step of AuthorZchema: the base record is built with
the required members plus the unguarded optional passthroughs
(displayNameAlternatives, worksApiUrl); every other optional member is
assigned under a JS truthiness guard. -/
def authorTransform (data : RawAuthor) : Author :=
  { id := data.id
    ids := { openalex := data.ids.openalex
             orcid := keepTruthy data.ids.orcid
             wikipedia := keepTruthy data.ids.wikipedia
             scopus := keepTruthy data.ids.scopus
             twitter := keepTruthy data.ids.twitter }
    citedByCount := data.cited_by_count
    worksCount := data.works_count
    countsByYear := data.counts_by_year.map fun cy =>
      { year := cy.year
        worksCount := cy.works_count
        citedByCount := cy.cited_by_count }
    displayName := data.display_name
    displayNameAlternatives := data.display_name_alternatives
    worksApiUrl := data.works_api_url
    orcid := keepTruthy data.orcid
    lastKnownInstitutions := data.last_known_institutions
    createdDate := (keepTruthy data.created_date).map jsNewDate
    updatedDate := (keepTruthy data.updated_date).map jsNewDate
    summaryStats := data.summary_stats.map fun ss =>
      { twoYrMeanCitedness := ss.two_yr_mean_citedness
        hIndex := ss.h_index
        i10Index := ss.i10_index }
    affiliations := data.affiliations }

def AuthorZchema (j : Json) : Except ParseError Author :=
  (validateRawAuthor j).map authorTransform

/-- `parseAuthor`: safeParse wrapped into the two-slot result (the
console.log on failure is pure logging and not modelled). -/
def parseAuthor (data : Json) : Option Author × Option ParseError :=
  match AuthorZchema data with
  | .ok a => (some a, none)
  | .error e => (none, some e)

/-- `ExcludeAuthorFields`. -/
inductive ExcludeAuthorFields where
  | affiliations
  | created_date
  | display_name_alternatives
  | last_known_institutions
  | summary_stats
  | updated_date
  | works_api_url
deriving DecidableEq

def ExcludeAuthorFields.fieldName : ExcludeAuthorFields → String
  | .affiliations => "affiliations"
  | .created_date => "created_date"
  | .display_name_alternatives => "display_name_alternatives"
  | .last_known_institutions => "last_known_institutions"
  | .summary_stats => "summary_stats"
  | .updated_date => "updated_date"
  | .works_api_url => "works_api_url"

/-- `ALL_AUTHOR_FIELDS`, in its source order. -/
def ALL_AUTHOR_FIELDS : List String :=
  ["id", "ids", "cited_by_count", "works_count", "counts_by_year",
   "created_date", "display_name", "display_name_alternatives",
   "last_known_institutions", "orcid", "affiliations", "summary_stats",
   "updated_date", "works_api_url"]

/-! ## lib/index.ts: the select clause

`const selectedFields = ALL_WORK_FIELDS.filter((field) =>
!excludedFieldsSet.has(field)); selectQuery =
"select=" + selectedFields.map(encodeURIComponent).join(",")`
(getWorks; getWork builds the same clause behind a leading "?"). -/

/-- Membership in `new Set(excludedFields)`. -/
def excludedHas (excluded : List ExcludeWorkField) (field : String) : Bool :=
  (excluded.map ExcludeWorkField.fieldName).contains field

/-- The retained field list, in registry order. -/
def selectedWorkFields (excluded : List ExcludeWorkField) : List String :=
  ALL_WORK_FIELDS.filter fun field => !(excludedHas excluded field)

/-- The full `select=` clause of getWorks / getWork. -/
def workSelectClause (excluded : List ExcludeWorkField) : String :=
  "select=" ++ joinSep "," ((selectedWorkFields excluded).map encodeURIComponent)

/-! ## Concrete raw records used to exercise the parsers -/

/-- A minimal valid raw Work record whose abstract_inverted_index is the
empty mapping. -/
def workJ0fields : List (String × Json) := [
  ("id", .str "https://openalex.org/W1"),
  ("ids", .obj [("openalex", .str "https://openalex.org/W1")]),
  ("title", .str "T"),
  ("indexed_in", .arr []),
  ("abstract_inverted_index", .obj []),
  ("publication_date", .str "2018-02-13"),
  ("publication_year", .num 2018),
  ("fwci", .null),
  ("cited_by_count", .num 0),
  ("has_fulltext", .bool false)]

def workJ0 : Json := .obj workJ0fields

/-- The Work that workJ0 parses to. -/
def w0 : Work :=
  { id := "https://openalex.org/W1"
    title := "T"
    ids := { openalex := "https://openalex.org/W1", doi := none, pmid := none,
             pmcid := none, mag := none }
    indexedIn := []
    abztract := none
    authorships := none
    apcList := none
    apcPaid := none
    primaryLocation := none
    bestOaLocation := none
    locations := none
    openAccess := none
    publicationDate := some 1518480000000
    publicationYear := 2018
    biblio := none
    fwci := none
    citationNormalizedPercentile := none
    citationCount := 0
    citationCountByYear := none
    sdg := none
    fullTextSeachable := false
    concepts := none }

/-- A raw DehydratedSource record with null optional members. -/
def srcJ0fields : List (String × Json) := [
  ("id", .str "https://openalex.org/S1"),
  ("display_name", .str "D"),
  ("host_organization", .null),
  ("host_organization_name", .null),
  ("is_core", .bool false),
  ("is_in_doaj", .bool false),
  ("is_oa", .bool false),
  ("issn", .null),
  ("issn_l", .null),
  ("type", .str "journal")]

def srcJ0 : Json := .obj srcJ0fields

/-- The DehydratedSource that srcJ0 parses to. -/
def src0 : DehydratedSource :=
  { id := "https://openalex.org/S1"
    displayName := "D"
    hostOrganizationId := none
    hostOrganizationName := none
    isCore := false
    isInDoaj := false
    isOA := false
    issn := none
    issnL := none
    type := "journal" }

/-- A raw Location record with an empty-string pdf_url. -/
def locJ0fields : List (String × Json) := [
  ("is_oa", .bool false),
  ("pdf_url", .str ""),
  ("version", .null),
  ("source", .null)]

def locJ0 : Json := .obj locJ0fields

/-- The Location that locJ0 parses to. -/
def loc0 : Location :=
  { isOA := false, isAccepted := none, isPublished := none, pdfUrl := none,
    version := none, source := none }

/-- A raw OpenAccess record with an empty-string oa_url. -/
def oaJ0fields : List (String × Json) := [
  ("is_oa", .bool false),
  ("oa_status", .str "closed"),
  ("oa_url", .str ""),
  ("any_repository_has_fulltext", .bool false)]

def oaJ0 : Json := .obj oaJ0fields

/-- The OpenAccess that oaJ0 parses to. -/
def oa0 : OpenAccess :=
  { isOA := false, status := "closed", url := none,
    anyRepositoryHasFulltext := false }

/-- A minimal valid raw Author record with an empty-string orcid. -/
def authJ0fields : List (String × Json) := [
  ("id", .str "https://openalex.org/A1"),
  ("ids", .obj [("openalex", .str "https://openalex.org/A1")]),
  ("cited_by_count", .num 5),
  ("works_count", .num 2),
  ("counts_by_year", .arr []),
  ("display_name", .str "N"),
  ("orcid", .str "")]

def authJ0 : Json := .obj authJ0fields

/-- The Author that authJ0 parses to. -/
def auth0 : Author :=
  { id := "https://openalex.org/A1"
    ids := { orcid := none, wikipedia := none, openalex := "https://openalex.org/A1",
             scopus := none, twitter := none }
    affiliations := none
    citedByCount := 5
    worksCount := 2
    countsByYear := []
    createdDate := none
    displayName := "N"
    displayNameAlternatives := none
    lastKnownInstitutions := none
    orcid := none
    summaryStats := none
    updatedDate := none
    worksApiUrl := none }

/-! ## Helper lemmas -/

theorem bind_ok {α β : Type} {x : Except ParseError α} {f : α → Except ParseError β} {b : β}
    (h : (x >>= f) = .ok b) : ∃ a, x = .ok a ∧ f a = .ok b := by
  cases x with
  | ok a => exact ⟨a, rfl, h⟩
  | error e => simp [Bind.bind, Except.bind] at h

theorem map_ok {α β : Type} {x : Except ParseError α} {f : α → β} {b : β}
    (h : x.map f = .ok b) : ∃ a, x = .ok a ∧ f a = b := by
  cases x with
  | ok a =>
    refine ⟨a, rfl, ?_⟩
    simpa [Except.map] using h
  | error e => simp [Except.map] at h

theorem nullableField_ok_null {α : Type} {fields : List (String × Json)} {k : String}
    {v : Json → Except ParseError α} {r : Option α}
    (hg : getField fields k = some Json.null) (h : nullableField fields k v = .ok r) :
    r = none := by
  unfold nullableField at h
  rw [hg] at h
  injection h with h
  exact h.symm

theorem nullableField_none_error {α : Type} {fields : List (String × Json)} {k : String}
    {v : Json → Except ParseError α} {r : Option α}
    (hg : getField fields k = none) (h : nullableField fields k v = .ok r) : False := by
  unfold nullableField at h
  rw [hg] at h
  exact Except.noConfusion h

theorem nullableField_ok_str {fields : List (String × Json)} {k : String}
    {s : String} {r : Option String}
    (hg : getField fields k = some (Json.str s))
    (h : nullableField fields k vStr = .ok r) : r = some s := by
  unfold nullableField at h
  rw [hg] at h
  simp only [vStr, Except.map] at h
  injection h with h
  exact h.symm

theorem nullishField_ok_none {α : Type} {fields : List (String × Json)} {k : String}
    {v : Json → Except ParseError α} {r : Option α}
    (hg : getField fields k = none) (h : nullishField fields k v = .ok r) :
    r = none := by
  unfold nullishField at h
  rw [hg] at h
  injection h with h
  exact h.symm

theorem nullishField_ok_null {α : Type} {fields : List (String × Json)} {k : String}
    {v : Json → Except ParseError α} {r : Option α}
    (hg : getField fields k = some Json.null) (h : nullishField fields k v = .ok r) :
    r = none := by
  unfold nullishField at h
  rw [hg] at h
  injection h with h
  exact h.symm

theorem nullishField_ok_str {fields : List (String × Json)} {k : String}
    {s : String} {r : Option String}
    (hg : getField fields k = some (Json.str s))
    (h : nullishField fields k vStr = .ok r) : r = some s := by
  unfold nullishField at h
  rw [hg] at h
  simp only [vStr, Except.map] at h
  injection h with h
  exact h.symm

theorem nullishField_ok_empty_record {fields : List (String × Json)} {k : String}
    {r : Option (List (String × List Int))}
    (hg : getField fields k = some (Json.obj []))
    (h : nullishField fields k (vRecordOf (vArrayOf vNum)) = .ok r) :
    r = some [] := by
  unfold nullishField at h
  rw [hg] at h
  simp only [vRecordOf, List.mapM_nil, Except.map] at h
  injection h with h
  exact h.symm

theorem optionalField_ok_str {fields : List (String × Json)} {k : String}
    {s : String} {r : Option String}
    (hg : getField fields k = some (Json.str s))
    (h : optionalField fields k vStr = .ok r) : r = some s := by
  unfold optionalField at h
  rw [hg] at h
  simp only [vStr, Except.map] at h
  injection h with h
  exact h.symm

theorem reqField_ok {α : Type} {fields : List (String × Json)} {k : String}
    {j : Json} {v : Json → Except ParseError α} {r : α}
    (hg : getField fields k = some j) (h : reqField fields k v = .ok r) :
    v j = .ok r := by
  unfold reqField at h
  rw [hg] at h
  exact h

theorem vStrEnum_ok {lits : List String} {j : Json} {t : String}
    (h : vStrEnum lits j = .ok t) : ∃ s, j = Json.str s ∧ s ∈ lits := by
  cases j with
  | str s =>
    refine ⟨s, rfl, ?_⟩
    simp only [vStrEnum] at h
    by_cases hc : lits.contains s = true
    · simpa using hc
    · rw [if_neg hc] at h
      exact Except.noConfusion h
  | null => exact Except.noConfusion h
  | bool b => exact Except.noConfusion h
  | num n => exact Except.noConfusion h
  | arr xs => exact Except.noConfusion h
  | obj fs => exact Except.noConfusion h

theorem applyAdds_filters (f : Filter) (cs : List FilterCondition) :
    (f.applyAdds cs).filters = f.filters ++ cs := by
  induction cs generalizing f with
  | nil => simp [Filter.applyAdds]
  | cons c rest ih =>
    simp only [Filter.applyAdds, List.foldl_cons] at *
    rw [ih]
    simp [Filter.add]

theorem insertPair_filter (x : Int × String) (l : List (Int × String)) (k : Int) :
    (insertPair x l).filter (fun p => p.1 == k) =
      if x.1 = k then x :: l.filter (fun p => p.1 == k)
      else l.filter (fun p => p.1 == k) := by
  induction l with
  | nil =>
    simp only [insertPair]
    by_cases h : x.1 = k <;> simp [List.filter_cons, beq_iff_eq, h]
  | cons y ys ih =>
    simp only [insertPair]
    by_cases hle : x.1 ≤ y.1
    · rw [if_pos hle]
      by_cases hx : x.1 = k <;> simp [List.filter_cons, beq_iff_eq, hx]
    · rw [if_neg hle]
      by_cases hx : x.1 = k
      · have hyk : ¬ y.1 = k := by omega
        simp [List.filter_cons, beq_iff_eq, hyk, ih, hx]
      · by_cases hyk : y.1 = k <;>
          simp [List.filter_cons, beq_iff_eq, hyk, ih, hx]

theorem sortPairs_filter (l : List (Int × String)) (k : Int) :
    (sortPairs l).filter (fun p => p.1 == k) = l.filter (fun p => p.1 == k) := by
  induction l with
  | nil => rfl
  | cons x xs ih =>
    simp only [sortPairs, insertPair_filter, List.filter_cons, ih]
    by_cases hx : x.1 = k <;> simp [hx]

theorem insertPair_perm (x : Int × String) (l : List (Int × String)) :
    (insertPair x l).Perm (x :: l) := by
  induction l with
  | nil => simp [insertPair]
  | cons y ys ih =>
    by_cases hle : x.1 ≤ y.1
    · simp [insertPair, hle]
    · simp only [insertPair, if_neg hle]
      exact (ih.cons y).trans (List.Perm.swap x y ys)

theorem sortPairs_perm (l : List (Int × String)) : (sortPairs l).Perm l := by
  induction l with
  | nil => simp [sortPairs]
  | cons x xs ih => exact (insertPair_perm x (sortPairs xs)).trans (ih.cons x)

theorem insertPair_mem {z x : Int × String} {l : List (Int × String)}
    (h : z ∈ insertPair x l) : z = x ∨ z ∈ l :=
  List.mem_cons.mp ((insertPair_perm x l).mem_iff.mp h)

theorem insertPair_sorted (x : Int × String) (l : List (Int × String))
    (h : l.Pairwise (fun a b => a.1 ≤ b.1)) :
    (insertPair x l).Pairwise (fun a b => a.1 ≤ b.1) := by
  induction l with
  | nil => simp [insertPair]
  | cons y ys ih =>
    rcases List.pairwise_cons.mp h with ⟨hy, hys⟩
    by_cases hle : x.1 ≤ y.1
    · simp only [insertPair, if_pos hle]
      refine List.pairwise_cons.mpr ⟨?_, h⟩
      intro z hz
      rcases List.mem_cons.mp hz with rfl | hz
      · exact hle
      · exact le_trans hle (hy z hz)
    · simp only [insertPair, if_neg hle]
      refine List.pairwise_cons.mpr ⟨?_, ih hys⟩
      intro z hz
      rcases insertPair_mem hz with rfl | hz
      · omega
      · exact hy z hz

theorem sortPairs_sorted (l : List (Int × String)) :
    (sortPairs l).Pairwise (fun a b => a.1 ≤ b.1) := by
  induction l with
  | nil => simp [sortPairs]
  | cons x xs ih => exact insertPair_sorted x (sortPairs xs) ih

/-! ## Claim theorems -/

/-- C1: on a fresh builder, `toString` is `filter=` followed by the
serialized conditions, comma-joined in add order; a scalar condition is
`field:opvalue`, a list condition repeats the operator before every
element joined with a bar; and the two example chains of the spec produce
exactly the documented fragments. -/
theorem c1_filter_grammar :
    (∀ cs : List FilterCondition,
        (Filter.empty.applyAdds cs).toString =
          "filter=" ++ joinSep "," (cs.map serializeCondition))
  ∧ (∀ (f : String) (v : FilterValue) (op : Operator),
        serializeCondition ⟨f, .inl v, op⟩ = f ++ ":" ++ op.render ++ v.render)
  ∧ (∀ (f : String) (vs : List FilterValue) (op : Operator),
        serializeCondition ⟨f, .inr vs, op⟩ =
          f ++ ":" ++ joinSep "|" (vs.map fun v => op.render ++ v.render))
  ∧ ((Filter.empty.add "author.id" (.inl (.str "A5023888391")) .eq).add "type"
        (.inl (.str "article")) .neg).toString =
      "filter=author.id:A5023888391,type:!article"
  ∧ (Filter.empty.add "id" (.inr [.str "A1", .str "A2"]) .eq).toString =
      "filter=id:A1|A2" := by
  refine ⟨?_, ?_, ?_, rfl, rfl⟩
  · intro cs
    simp [Filter.toString, Filter.build, applyAdds_filters, Filter.empty]
  · intro f v op
    rfl
  · intro f vs op
    rfl

/-- C9: `add` returns the very builder it was called on (in the
explicit-state reading of the methods, the returned value and the
receiver state after the call coincide, both being the list with the new
condition appended), and `toString` is pure: it leaves the condition list
unchanged and consecutive calls with no intervening add return equal
strings. -/
theorem c9_builder_fluent_pure :
    (∀ (s : Filter) (f : String) (v : FilterValueArg) (o : Operator),
        (Filter.addCall f v o s).1 = (Filter.addCall f v o s).2
        ∧ (Filter.addCall f v o s).2 = ⟨s.filters ++ [⟨f, v, o⟩]⟩)
  ∧ (∀ s : Filter, (Filter.toStringCall s).2 = s)
  ∧ (∀ s : Filter, ((Filter.toStringCall s).2).filters = s.filters)
  ∧ (∀ s : Filter,
        (Filter.toStringCall ((Filter.toStringCall s).2)).1 = (Filter.toStringCall s).1) :=
  ⟨fun _ _ _ _ => ⟨rfl, rfl⟩, fun _ => rfl, fun _ => rfl, fun _ => rfl⟩

/-- C6: parseWork and parseAuthor always return a two-slot result with
exactly one slot populated: a validated entity and no error, or a
structured error and no entity. -/
theorem c6_two_slot_result :
    (∀ j : Json, ((parseWork j).1.isSome ∧ (parseWork j).2 = none)
        ∨ ((parseWork j).1 = none ∧ (parseWork j).2.isSome))
  ∧ (∀ j : Json, ((parseAuthor j).1.isSome ∧ (parseAuthor j).2 = none)
        ∨ ((parseAuthor j).1 = none ∧ (parseAuthor j).2.isSome)) := by
  constructor
  · intro j
    cases h : WorkZchema j with
    | ok w => left; simp [parseWork, h]
    | error e => right; simp [parseWork, h]
  · intro j
    cases h : AuthorZchema j with
    | ok a => left; simp [parseAuthor, h]
    | error e => right; simp [parseAuthor, h]

/-- C2: the reconstructed abstract is the flattening of the inverted
index into (position, word) pairs, stable-sorted ascending by position
(the sorted list is a permutation of the flattening, is pairwise ordered
by position, and for every position its entries keep the flattening
order, i.e. the mapping's iteration order), joined with single spaces and
trimmed; and the two example mappings of the spec reconstruct to the
documented strings. -/
theorem c2_abstract_reconstruction :
    (∀ entries : List (String × List Int),
        reconstructAbstract entries =
          jsTrim (joinSep " " ((sortPairs (flattenIndex entries)).map Prod.snd)))
  ∧ (∀ entries : List (String × List Int),
        (sortPairs (flattenIndex entries)).Perm (flattenIndex entries))
  ∧ (∀ entries : List (String × List Int),
        (sortPairs (flattenIndex entries)).Pairwise (fun a b => a.1 ≤ b.1))
  ∧ (∀ (entries : List (String × List Int)) (k : Int),
        (sortPairs (flattenIndex entries)).filter (fun p => p.1 == k) =
          (flattenIndex entries).filter (fun p => p.1 == k))
  ∧ reconstructAbstract [("The", [0]), ("cat", [1]), ("sat", [2])] = "The cat sat"
  ∧ reconstructAbstract [("a", [0, 2]), ("b", [1])] = "a b a" := by
  refine ⟨fun _ => rfl, fun entries => sortPairs_perm _, fun entries => sortPairs_sorted _,
    fun entries k => sortPairs_filter _ _, by decide, by decide⟩

theorem excludedHas_iff (S : List ExcludeWorkField) (f : String) :
    excludedHas S f = true ↔ ∃ e ∈ S, e.fieldName = f := by
  simp [excludedHas, List.contains_iff_exists_mem_beq, List.mem_map]

set_option maxRecDepth 20000 in
/-- C3: the select clause is `select=` followed by exactly the members of
ALL_WORK_FIELDS not excluded, URI-component-encoded and comma-joined; the
retained list is a sublist of the registry (canonical order), membership
depends only on the exclusion set (not on the order it was supplied in),
no excludable field is named "id", so "id" is retained in every clause;
and the exclusion set of the repository's own test produces the expected
clause. -/
theorem c3_select_clause :
    (∀ S, workSelectClause S =
        "select=" ++ joinSep "," ((selectedWorkFields S).map encodeURIComponent))
  ∧ (∀ S f, f ∈ selectedWorkFields S ↔
        f ∈ ALL_WORK_FIELDS ∧ ∀ e ∈ S, ExcludeWorkField.fieldName e ≠ f)
  ∧ (∀ S, (selectedWorkFields S).Sublist ALL_WORK_FIELDS)
  ∧ (∀ S T, (∀ e : ExcludeWorkField, e ∈ S ↔ e ∈ T) →
        workSelectClause S = workSelectClause T)
  ∧ (∀ e : ExcludeWorkField, e.fieldName ≠ "id")
  ∧ (∀ S, "id" ∈ selectedWorkFields S)
  ∧ workSelectClause [.abstract_inverted_index, .primary_location, .open_access,
      .concepts] =
      "select=id,ids,indexed_in,authorships,apc_list,apc_paid,best_oa_location,locations,publication_date,publication_year,biblio,fwci,citation_normalized_percentile,cited_by_count,counts_by_year,sustainable_development_goals,has_fulltext,title" := by
  have hmem : ∀ S f, f ∈ selectedWorkFields S ↔
      f ∈ ALL_WORK_FIELDS ∧ ∀ e ∈ S, ExcludeWorkField.fieldName e ≠ f := by
    intro S f
    simp only [selectedWorkFields, List.mem_filter, Bool.not_eq_true']
    constructor
    · rintro ⟨hf, hex⟩
      refine ⟨hf, fun e he hne => ?_⟩
      exact absurd ((excludedHas_iff S f).mpr ⟨e, he, hne⟩) (by simp [hex])
    · rintro ⟨hf, hall⟩
      refine ⟨hf, ?_⟩
      by_contra hx
      rcases (excludedHas_iff S f).mp (by simpa using hx) with ⟨e, he, hfe⟩
      exact hall e he hfe
  have hid : ∀ e : ExcludeWorkField, e.fieldName ≠ "id" := by decide
  refine ⟨fun _ => rfl, hmem, fun S => List.filter_sublist _, ?_, hid, ?_, rfl⟩
  · intro S T h
    have : selectedWorkFields S = selectedWorkFields T := by
      apply List.filter_congr
      intro f hf
      have heq : excludedHas S f = excludedHas T f := by
        by_cases hS : excludedHas S f = true
        · rcases (excludedHas_iff S f).mp hS with ⟨e, he, hfe⟩
          have hT := (excludedHas_iff T f).mpr ⟨e, (h e).mp he, hfe⟩
          rw [hS, hT]
        · have hT : ¬ excludedHas T f = true := by
            intro hT
            rcases (excludedHas_iff T f).mp hT with ⟨e, he, hfe⟩
            exact hS ((excludedHas_iff S f).mpr ⟨e, (h e).mpr he, hfe⟩)
          simp only [Bool.not_eq_true] at hS hT
          rw [hS, hT]
      rw [heq]
    simp [workSelectClause, this]
  · intro S
    refine (hmem S "id").mpr ⟨by decide, fun e he => hid e⟩

theorem c3_select_clause_witness :
    workSelectClause [ExcludeWorkField.biblio, ExcludeWorkField.concepts] =
      workSelectClause [ExcludeWorkField.concepts, ExcludeWorkField.biblio] :=
  c3_select_clause.2.2.2.1 _ _ (by decide)

/-- C7: for the nullable optional fields of the entity schemas
(DehydratedSource.hostOrganizationId and issn, Location.pdfUrl and
version), a successfully parsed entity has the field entirely absent
(`none`, never a present null — the domain records carry no null state)
whenever the raw JSON carried null for it or omitted it; omission of
these nullable-but-required keys in fact never reaches a successful
parse, so that branch holds vacuously. -/
theorem c7_null_or_absent_collapsed :
    (∀ fields s, DehydratedSourceZchema (Json.obj fields) = .ok s →
        ((getField fields "host_organization" = some Json.null ∨
            getField fields "host_organization" = none) →
          s.hostOrganizationId = none)
        ∧ ((getField fields "issn" = some Json.null ∨
              getField fields "issn" = none) → s.issn = none))
  ∧ (∀ fields l, LocationZchema (Json.obj fields) = .ok l →
        ((getField fields "pdf_url" = some Json.null ∨
            getField fields "pdf_url" = none) → l.pdfUrl = none)
        ∧ ((getField fields "version" = some Json.null ∨
              getField fields "version" = none) → l.version = none)) := by
  constructor
  · intro fields s h
    obtain ⟨raw, hraw, rfl⟩ := map_ok h
    unfold validateRawDehydratedSource at hraw
    obtain ⟨flds, h0, hraw⟩ := bind_ok hraw
    simp only [asObj] at h0
    injection h0 with h0
    subst h0
    obtain ⟨x1, h1, hraw⟩ := bind_ok hraw
    obtain ⟨x2, h2, hraw⟩ := bind_ok hraw
    obtain ⟨x3, h3, hraw⟩ := bind_ok hraw
    obtain ⟨x4, h4, hraw⟩ := bind_ok hraw
    obtain ⟨x5, h5, hraw⟩ := bind_ok hraw
    obtain ⟨x6, h6, hraw⟩ := bind_ok hraw
    obtain ⟨x7, h7, hraw⟩ := bind_ok hraw
    obtain ⟨x8, h8, hraw⟩ := bind_ok hraw
    obtain ⟨x9, h9, hraw⟩ := bind_ok hraw
    obtain ⟨x10, h10, hraw⟩ := bind_ok hraw
    simp only [pure, Except.pure] at hraw
    injection hraw with hraw
    subst hraw
    constructor
    · rintro (hg | hg)
      · have hx := nullableField_ok_null hg h3
        subst hx
        rfl
      · exact (nullableField_none_error hg h3).elim
    · rintro (hg | hg)
      · have hx := nullableField_ok_null hg h8
        subst hx
        rfl
      · exact (nullableField_none_error hg h8).elim
  · intro fields l h
    obtain ⟨raw, hraw, rfl⟩ := map_ok h
    unfold validateRawLocation at hraw
    obtain ⟨flds, h0, hraw⟩ := bind_ok hraw
    simp only [asObj] at h0
    injection h0 with h0
    subst h0
    obtain ⟨x1, h1, hraw⟩ := bind_ok hraw
    obtain ⟨x2, h2, hraw⟩ := bind_ok hraw
    obtain ⟨x3, h3, hraw⟩ := bind_ok hraw
    obtain ⟨x4, h4, hraw⟩ := bind_ok hraw
    obtain ⟨x5, h5, hraw⟩ := bind_ok hraw
    obtain ⟨x6, h6, hraw⟩ := bind_ok hraw
    simp only [pure, Except.pure] at hraw
    injection hraw with hraw
    subst hraw
    constructor
    · rintro (hg | hg)
      · have hx := nullableField_ok_null hg h4
        subst hx
        rfl
      · exact (nullableField_none_error hg h4).elim
    · rintro (hg | hg)
      · have hx := nullableField_ok_null hg h5
        subst hx
        rfl
      · exact (nullableField_none_error hg h5).elim

theorem c7_null_or_absent_collapsed_witness :
    src0.hostOrganizationId = none ∧ src0.issn = none ∧ loc0.version = none := by
  have hsrc := (c7_null_or_absent_collapsed.1 srcJ0fields src0 rfl)
  have hloc := (c7_null_or_absent_collapsed.2 locJ0fields loc0 rfl)
  exact ⟨hsrc.1 (Or.inl rfl), hsrc.2 (Or.inl rfl), hloc.2 (Or.inl rfl)⟩

/-- C8: a record whose enum-typed field (DehydratedSource.type,
DehydratedInstitution.type, Authorship.author_position,
OpenAccess.oa_status) holds a value outside the closed literal set never
validates: no entity is ever returned for it. -/
theorem c8_enum_rejection :
    (∀ fields v, getField fields "type" = some v →
        (∀ s, v = Json.str s → s ∉ sourceTypeLits) →
        ∀ out, DehydratedSourceZchema (Json.obj fields) ≠ .ok out)
  ∧ (∀ fields v, getField fields "type" = some v →
        (∀ s, v = Json.str s → s ∉ institutionTypeLits) →
        ∀ out, DehydratedInstitutionZchema (Json.obj fields) ≠ .ok out)
  ∧ (∀ fields v, getField fields "author_position" = some v →
        (∀ s, v = Json.str s → s ∉ authorPositionLits) →
        ∀ out, AuthorshipZchema (Json.obj fields) ≠ .ok out)
  ∧ (∀ fields v, getField fields "oa_status" = some v →
        (∀ s, v = Json.str s → s ∉ oaStatusLits) →
        ∀ out, OpenAccessZchema (Json.obj fields) ≠ .ok out) := by
  refine ⟨?_, ?_, ?_, ?_⟩
  · intro fields v hg hbad out h
    obtain ⟨raw, hraw, rfl⟩ := map_ok h
    unfold validateRawDehydratedSource at hraw
    obtain ⟨flds, h0, hraw⟩ := bind_ok hraw
    simp only [asObj] at h0
    injection h0 with h0
    subst h0
    obtain ⟨x1, h1, hraw⟩ := bind_ok hraw
    obtain ⟨x2, h2, hraw⟩ := bind_ok hraw
    obtain ⟨x3, h3, hraw⟩ := bind_ok hraw
    obtain ⟨x4, h4, hraw⟩ := bind_ok hraw
    obtain ⟨x5, h5, hraw⟩ := bind_ok hraw
    obtain ⟨x6, h6, hraw⟩ := bind_ok hraw
    obtain ⟨x7, h7, hraw⟩ := bind_ok hraw
    obtain ⟨x8, h8, hraw⟩ := bind_ok hraw
    obtain ⟨x9, h9, hraw⟩ := bind_ok hraw
    obtain ⟨x10, h10, hraw⟩ := bind_ok hraw
    obtain ⟨s, rfl, hmem⟩ := vStrEnum_ok (reqField_ok hg h10)
    exact hbad s rfl hmem
  · intro fields v hg hbad out h
    obtain ⟨raw, hraw, rfl⟩ := map_ok h
    unfold validateRawDehydratedInstitution at hraw
    obtain ⟨flds, h0, hraw⟩ := bind_ok hraw
    simp only [asObj] at h0
    injection h0 with h0
    subst h0
    obtain ⟨x1, h1, hraw⟩ := bind_ok hraw
    obtain ⟨x2, h2, hraw⟩ := bind_ok hraw
    obtain ⟨x3, h3, hraw⟩ := bind_ok hraw
    obtain ⟨x4, h4, hraw⟩ := bind_ok hraw
    obtain ⟨x5, h5, hraw⟩ := bind_ok hraw
    obtain ⟨x6, h6, hraw⟩ := bind_ok hraw
    obtain ⟨s, rfl, hmem⟩ := vStrEnum_ok (reqField_ok hg h6)
    exact hbad s rfl hmem
  · intro fields v hg hbad out h
    obtain ⟨raw, hraw, rfl⟩ := map_ok h
    unfold validateRawAuthorship at hraw
    obtain ⟨flds, h0, hraw⟩ := bind_ok hraw
    simp only [asObj] at h0
    injection h0 with h0
    subst h0
    obtain ⟨x1, h1, hraw⟩ := bind_ok hraw
    obtain ⟨x2, h2, hraw⟩ := bind_ok hraw
    obtain ⟨x3, h3, hraw⟩ := bind_ok hraw
    obtain ⟨s, rfl, hmem⟩ := vStrEnum_ok (reqField_ok hg h3)
    exact hbad s rfl hmem
  · intro fields v hg hbad out h
    obtain ⟨raw, hraw, rfl⟩ := map_ok h
    unfold validateRawOpenAccess at hraw
    obtain ⟨flds, h0, hraw⟩ := bind_ok hraw
    simp only [asObj] at h0
    injection h0 with h0
    subst h0
    obtain ⟨x1, h1, hraw⟩ := bind_ok hraw
    obtain ⟨x2, h2, hraw⟩ := bind_ok hraw
    obtain ⟨s, rfl, hmem⟩ := vStrEnum_ok (reqField_ok hg h2)
    exact hbad s rfl hmem

theorem c8_enum_rejection_witness :
    DehydratedSourceZchema (Json.obj [("type", Json.str "blog")]) ≠ .ok src0 :=
  c8_enum_rejection.1 [("type", Json.str "blog")] (Json.str "blog") rfl
    (by
      intro s hs
      injection hs with hs
      subst hs
      decide)
    src0

/-- C10: in the schemas that guard optional assignments with truthiness
checks, a present optional string is never empty: Location.pdfUrl,
OpenAccess.url and Author.orcid never hold the empty string, and an
empty string in the source is collapsed to the absent state. -/
theorem c10_truthy_never_empty :
    (∀ j l, LocationZchema j = .ok l → ∀ s, l.pdfUrl = some s → s ≠ "")
  ∧ (∀ j oa, OpenAccessZchema j = .ok oa → ∀ s, oa.url = some s → s ≠ "")
  ∧ (∀ j a, AuthorZchema j = .ok a → ∀ s, a.orcid = some s → s ≠ "")
  ∧ (∀ fields l, LocationZchema (Json.obj fields) = .ok l →
        getField fields "pdf_url" = some (Json.str "") → l.pdfUrl = none)
  ∧ (∀ fields oa, OpenAccessZchema (Json.obj fields) = .ok oa →
        getField fields "oa_url" = some (Json.str "") → oa.url = none)
  ∧ (∀ fields a, AuthorZchema (Json.obj fields) = .ok a →
        getField fields "orcid" = some (Json.str "") → a.orcid = none) := by
  refine ⟨?_, ?_, ?_, ?_, ?_, ?_⟩
  · intro j l h s hs he
    subst he
    obtain ⟨raw, _, rfl⟩ := map_ok h
    revert hs
    simp only [locationTransform]
    cases hp : raw.pdf_url with
    | none => simp
    | some v => by_cases hv : v = "" <;> simp [hv]
  · intro j oa h s hs he
    subst he
    obtain ⟨raw, _, rfl⟩ := map_ok h
    revert hs
    simp only [openAccessTransform]
    cases hp : raw.oa_url with
    | none => simp
    | some v => by_cases hv : v = "" <;> simp [hv]
  · intro j a h s hs he
    subst he
    obtain ⟨raw, _, rfl⟩ := map_ok h
    revert hs
    simp only [authorTransform, keepTruthy]
    cases hp : raw.orcid with
    | none => simp
    | some v => by_cases hv : v = "" <;> simp [hv]
  · intro fields l h hg
    obtain ⟨raw, hraw, rfl⟩ := map_ok h
    unfold validateRawLocation at hraw
    obtain ⟨flds, h0, hraw⟩ := bind_ok hraw
    simp only [asObj] at h0
    injection h0 with h0
    subst h0
    obtain ⟨x1, h1, hraw⟩ := bind_ok hraw
    obtain ⟨x2, h2, hraw⟩ := bind_ok hraw
    obtain ⟨x3, h3, hraw⟩ := bind_ok hraw
    obtain ⟨x4, h4, hraw⟩ := bind_ok hraw
    obtain ⟨x5, h5, hraw⟩ := bind_ok hraw
    obtain ⟨x6, h6, hraw⟩ := bind_ok hraw
    simp only [pure, Except.pure] at hraw
    injection hraw with hraw
    subst hraw
    have hx := nullableField_ok_str hg h4
    subst hx
    rfl
  · intro fields oa h hg
    obtain ⟨raw, hraw, rfl⟩ := map_ok h
    unfold validateRawOpenAccess at hraw
    obtain ⟨flds, h0, hraw⟩ := bind_ok hraw
    simp only [asObj] at h0
    injection h0 with h0
    subst h0
    obtain ⟨x1, h1, hraw⟩ := bind_ok hraw
    obtain ⟨x2, h2, hraw⟩ := bind_ok hraw
    obtain ⟨x3, h3, hraw⟩ := bind_ok hraw
    obtain ⟨x4, h4, hraw⟩ := bind_ok hraw
    simp only [pure, Except.pure] at hraw
    injection hraw with hraw
    subst hraw
    have hx := nullishField_ok_str hg h3
    subst hx
    rfl
  · intro fields a h hg
    obtain ⟨raw, hraw, rfl⟩ := map_ok h
    unfold validateRawAuthor at hraw
    obtain ⟨flds, h0, hraw⟩ := bind_ok hraw
    simp only [asObj] at h0
    injection h0 with h0
    subst h0
    obtain ⟨x1, h1, hraw⟩ := bind_ok hraw
    obtain ⟨x2, h2, hraw⟩ := bind_ok hraw
    obtain ⟨x3, h3, hraw⟩ := bind_ok hraw
    obtain ⟨x4, h4, hraw⟩ := bind_ok hraw
    obtain ⟨x5, h5, hraw⟩ := bind_ok hraw
    obtain ⟨x6, h6, hraw⟩ := bind_ok hraw
    obtain ⟨x7, h7, hraw⟩ := bind_ok hraw
    obtain ⟨x8, h8, hraw⟩ := bind_ok hraw
    obtain ⟨x9, h9, hraw⟩ := bind_ok hraw
    obtain ⟨x10, h10, hraw⟩ := bind_ok hraw
    obtain ⟨x11, h11, hraw⟩ := bind_ok hraw
    obtain ⟨x12, h12, hraw⟩ := bind_ok hraw
    obtain ⟨x13, h13, hraw⟩ := bind_ok hraw
    obtain ⟨x14, h14, hraw⟩ := bind_ok hraw
    simp only [pure, Except.pure] at hraw
    injection hraw with hraw
    subst hraw
    have hx := optionalField_ok_str hg h11
    subst hx
    rfl

theorem c10_truthy_never_empty_witness :
    loc0.pdfUrl = none ∧ oa0.url = none ∧ auth0.orcid = none :=
  ⟨c10_truthy_never_empty.2.2.2.1 locJ0fields loc0 rfl rfl,
   c10_truthy_never_empty.2.2.2.2.1 oaJ0fields oa0 rfl rfl,
   c10_truthy_never_empty.2.2.2.2.2 authJ0fields auth0 rfl rfl⟩

/-- C5: when the raw abstract_inverted_index is absent, null or the empty
mapping, a successfully parsed Work has no abztract member at all — it is
never the empty string. -/
theorem c5_empty_abstract_absent :
    ∀ fields w, parseWork (Json.obj fields) = (some w, none) →
      (getField fields "abstract_inverted_index" = none ∨
       getField fields "abstract_inverted_index" = some Json.null ∨
       getField fields "abstract_inverted_index" = some (Json.obj [])) →
      w.abztract = none := by
  intro fields w h hg
  have hz : WorkZchema (Json.obj fields) = .ok w := by
    cases hzz : WorkZchema (Json.obj fields) with
    | ok w2 =>
      simp [parseWork, hzz] at h
      rw [h]
    | error e => simp [parseWork, hzz] at h
  obtain ⟨raw, hraw, rfl⟩ := map_ok hz
  unfold validateRawWork at hraw
  obtain ⟨flds, h0, hraw⟩ := bind_ok hraw
  simp only [asObj] at h0
  injection h0 with h0
  subst h0
  obtain ⟨x1, h1, hraw⟩ := bind_ok hraw
  obtain ⟨x2, h2, hraw⟩ := bind_ok hraw
  obtain ⟨x3, h3, hraw⟩ := bind_ok hraw
  obtain ⟨x4, h4, hraw⟩ := bind_ok hraw
  obtain ⟨x5, h5, hraw⟩ := bind_ok hraw
  obtain ⟨x6, h6, hraw⟩ := bind_ok hraw
  obtain ⟨x7, h7, hraw⟩ := bind_ok hraw
  obtain ⟨x8, h8, hraw⟩ := bind_ok hraw
  obtain ⟨x9, h9, hraw⟩ := bind_ok hraw
  obtain ⟨x10, h10, hraw⟩ := bind_ok hraw
  obtain ⟨x11, h11, hraw⟩ := bind_ok hraw
  obtain ⟨x12, h12, hraw⟩ := bind_ok hraw
  obtain ⟨x13, h13, hraw⟩ := bind_ok hraw
  obtain ⟨x14, h14, hraw⟩ := bind_ok hraw
  obtain ⟨x15, h15, hraw⟩ := bind_ok hraw
  obtain ⟨x16, h16, hraw⟩ := bind_ok hraw
  obtain ⟨x17, h17, hraw⟩ := bind_ok hraw
  obtain ⟨x18, h18, hraw⟩ := bind_ok hraw
  obtain ⟨x19, h19, hraw⟩ := bind_ok hraw
  obtain ⟨x20, h20, hraw⟩ := bind_ok hraw
  obtain ⟨x21, h21, hraw⟩ := bind_ok hraw
  obtain ⟨x22, h22, hraw⟩ := bind_ok hraw
  simp only [pure, Except.pure] at hraw
  injection hraw with hraw
  subst hraw
  rcases hg with hg | hg | hg
  · have hx := nullishField_ok_none hg h5
    subst hx
    rfl
  · have hx := nullishField_ok_null hg h5
    subst hx
    rfl
  · have hx := nullishField_ok_empty_record hg h5
    subst hx
    rfl

theorem c5_empty_abstract_absent_witness :
    parseWork workJ0 = (some w0, none) ∧ w0.abztract = none := by
  have hp : parseWork (Json.obj workJ0fields) = (some w0, none) := by rfl
  exact ⟨hp, c5_empty_abstract_absent workJ0fields w0 hp (Or.inr (Or.inr rfl))⟩

/-! ## Calendar lemmas for C4 -/

set_option maxHeartbeats 4000000 in
theorem yoeOfDoe_eq (yoe doy : Nat) (h1 : yoe ≤ 399)
    (hdoy : doy ≤ 364 ∨ (doy = 365 ∧ (yoe + 1) % 4 = 0 ∧
      ((yoe + 1) % 100 ≠ 0 ∨ (yoe + 1) % 400 = 0))) :
    yoeOfDoe (doeOfCivil yoe doy) = yoe := by
  simp only [yoeOfDoe, doeOfCivil]
  interval_cases yoe <;> omega

theorem doeOfCivil_le (yoe doy : Nat) (h1 : yoe ≤ 399) (h2 : doy ≤ 365) :
    doeOfCivil yoe doy ≤ 146096 := by
  simp only [doeOfCivil]
  omega

theorem doyOfDoe_eq (yoe doy : Nat) (h1 : yoe ≤ 399)
    (hdoy : doy ≤ 364 ∨ (doy = 365 ∧ (yoe + 1) % 4 = 0 ∧
      ((yoe + 1) % 100 ≠ 0 ∨ (yoe + 1) % 400 = 0))) :
    doyOfDoe (doeOfCivil yoe doy) = doy := by
  unfold doyOfDoe
  rw [yoeOfDoe_eq yoe doy h1 hdoy]
  unfold doeOfCivil
  omega

theorem frameDoy_le (mp d : Nat) (hmp : mp ≤ 11) (hd1 : 1 ≤ d)
    (hd2 : d ≤ frameMonthLen mp) : frameDoy mp d ≤ 365 := by
  unfold frameDoy
  interval_cases mp <;> simp [frameMonthLen] at hd2 <;> omega

theorem mpOfDoe_eq (yoe mp d : Nat) (h1 : yoe ≤ 399) (hmp : mp ≤ 11)
    (hd1 : 1 ≤ d) (hd2 : d ≤ frameMonthLen mp)
    (hdoy : frameDoy mp d ≤ 364 ∨ (frameDoy mp d = 365 ∧ (yoe + 1) % 4 = 0 ∧
      ((yoe + 1) % 100 ≠ 0 ∨ (yoe + 1) % 400 = 0))) :
    mpOfDoe (doeOfCivil yoe (frameDoy mp d)) = mp := by
  unfold mpOfDoe
  rw [doyOfDoe_eq yoe (frameDoy mp d) h1 hdoy]
  unfold frameDoy
  interval_cases mp <;> simp [frameMonthLen] at hd2 <;> omega

theorem dayOfDoe_eq (yoe mp d : Nat) (h1 : yoe ≤ 399) (hmp : mp ≤ 11)
    (hd1 : 1 ≤ d) (hd2 : d ≤ frameMonthLen mp)
    (hdoy : frameDoy mp d ≤ 364 ∨ (frameDoy mp d = 365 ∧ (yoe + 1) % 4 = 0 ∧
      ((yoe + 1) % 100 ≠ 0 ∨ (yoe + 1) % 400 = 0))) :
    dayOfDoe (doeOfCivil yoe (frameDoy mp d)) = d := by
  unfold dayOfDoe
  rw [doyOfDoe_eq yoe (frameDoy mp d) h1 hdoy,
    mpOfDoe_eq yoe mp d h1 hmp hd1 hd2 hdoy]
  unfold frameDoy
  omega

theorem monthOfDoe_eq (yoe mp d : Nat) (h1 : yoe ≤ 399) (hmp : mp ≤ 11)
    (hd1 : 1 ≤ d) (hd2 : d ≤ frameMonthLen mp)
    (hdoy : frameDoy mp d ≤ 364 ∨ (frameDoy mp d = 365 ∧ (yoe + 1) % 4 = 0 ∧
      ((yoe + 1) % 100 ≠ 0 ∨ (yoe + 1) % 400 = 0))) :
    monthOfDoe (doeOfCivil yoe (frameDoy mp d)) =
      (if mp < 10 then mp + 3 else mp - 9) := by
  unfold monthOfDoe
  rw [mpOfDoe_eq yoe mp d h1 hmp hd1 hd2 hdoy]

theorem civil_roundtrip (y m d : Nat) (hm1 : 1 ≤ m) (hm2 : m ≤ 12)
    (hd1 : 1 ≤ d) (hd2 : d ≤ daysInMonth y m) :
    civilFromDaysShifted (daysFromCivilShifted y m d) = (y + 400, m, d) := by
  have hmp : monthAdj m ≤ 11 := by
    unfold monthAdj
    split <;> omega
  have hyoe : shiftedYear y m % 400 ≤ 399 := by omega
  have hd2f : d ≤ frameMonthLen (monthAdj m) := by
    interval_cases m <;>
      simp [daysInMonth, frameMonthLen, monthAdj] at hd2 ⊢ <;>
      first
        | omega
        | (split at hd2 <;> omega)
  have hdoy : frameDoy (monthAdj m) d ≤ 364 ∨
      (frameDoy (monthAdj m) d = 365 ∧ (shiftedYear y m % 400 + 1) % 4 = 0 ∧
        ((shiftedYear y m % 400 + 1) % 100 ≠ 0 ∨
          (shiftedYear y m % 400 + 1) % 400 = 0)) := by
    by_cases h365 : frameDoy (monthAdj m) d = 365
    · have hm29 : m = 2 ∧ d = 29 := by
        interval_cases m <;>
          simp [frameDoy, monthAdj, frameMonthLen] at h365 hd2f ⊢ <;> omega
      obtain ⟨rfl, rfl⟩ := hm29
      right
      have hleapy : isLeap y = true := by
        simp [daysInMonth] at hd2
        by_cases hl : isLeap y
        · exact hl
        · simp [hl] at hd2
      simp only [isLeap, Bool.and_eq_true, Bool.or_eq_true, decide_eq_true_eq,
        Bool.not_eq_true', decide_eq_false_iff_not] at hleapy
      refine ⟨h365, ?_, ?_⟩ <;> simp only [shiftedYear] <;> norm_num <;> omega
    · have := frameDoy_le (monthAdj m) d hmp hd1 hd2f
      exact Or.inl (by omega)
  have hdoele : doeOfCivil (shiftedYear y m % 400) (frameDoy (monthAdj m) d) ≤ 146096 :=
    doeOfCivil_le _ _ hyoe (frameDoy_le _ _ hmp hd1 hd2f)
  have hmod : (shiftedYear y m / 400 * 146097 +
      doeOfCivil (shiftedYear y m % 400) (frameDoy (monthAdj m) d)) % 146097 =
      doeOfCivil (shiftedYear y m % 400) (frameDoy (monthAdj m) d) := by omega
  have hdiv : (shiftedYear y m / 400 * 146097 +
      doeOfCivil (shiftedYear y m % 400) (frameDoy (monthAdj m) d)) / 146097 =
      shiftedYear y m / 400 := by omega
  unfold daysFromCivilShifted civilFromDaysShifted
  rw [hmod, hdiv, monthOfDoe_eq _ _ _ hyoe hmp hd1 hd2f hdoy,
    dayOfDoe_eq _ _ _ hyoe hmp hd1 hd2f hdoy, yoeOfDoe_eq _ _ hyoe hdoy]
  rcases le_or_lt m 2 with hle2 | hgt2
  · have h1 : shiftedYear y m = y + 399 := by
      unfold shiftedYear
      rw [if_pos hle2]
    have h2 : monthAdj m = m + 9 := by
      unfold monthAdj
      rw [if_neg (by omega : ¬ m > 2)]
    rw [h1, h2, if_neg (by omega : ¬ m + 9 < 10),
      show m + 9 - 9 = m from by omega, if_pos hle2,
      show (y + 399) / 400 * 400 + (y + 399) % 400 + 1 = y + 400 from by omega]
  · have h1 : shiftedYear y m = y + 400 := by
      unfold shiftedYear
      rw [if_neg (by omega : ¬ m ≤ 2)]
    have h2 : monthAdj m = m - 3 := by
      unfold monthAdj
      rw [if_pos (by omega : m > 2)]
    rw [h1, h2, if_pos (by omega : m - 3 < 10),
      show m - 3 + 3 = m from by omega, if_neg (by omega : ¬ m ≤ 2),
      show (y + 400) / 400 * 400 + (y + 400) % 400 = y + 400 from by omega]

/-- C4: a date-only ISO-8601 string "YYYY-MM-DD" accepted by the parser
denotes midnight UTC of exactly that day: the UTC-based accessors recover
the year, the zero-based month and the day of month from the stored time
value.  The accessors are functions of the time value alone (per ECMA-262
they involve no local time-zone offset), so no host time zone can shift
the day.  The Work transform stores `new Date(publication_date)`
unchanged, and "2018-02-13" in particular parses to time value
1518480000000. -/
theorem c4_date_utc :
    (∀ s y m d t, parseDateOnly s = some (y, m, d) → jsNewDate s = some t →
        getUTCFullYear t = (y : Int) ∧ getUTCMonth t = m - 1 ∧ getUTCDate t = d)
  ∧ (∀ raw : RawWork,
      (workTransform raw).publicationDate = jsNewDate raw.publication_date)
  ∧ jsNewDate "2018-02-13" = some 1518480000000 := by
  refine ⟨?_, fun _ => rfl, by decide⟩
  intro s y m d t hp hj
  unfold jsNewDate at hj
  rw [hp] at hj
  simp only [Option.map] at hj
  injection hj with hj
  have hbound : 1 ≤ m ∧ m ≤ 12 ∧ 1 ≤ d ∧ d ≤ daysInMonth y m := by
    unfold parseDateOnly at hp
    split at hp
    · dsimp only at hp
      split at hp
      · split at hp
        · rename_i hc2
          injection hp with hp
          obtain ⟨hy, hm, hd⟩ : _ ∧ _ ∧ _ := by simpa using hp
          subst hy
          subst hm
          subst hd
          simp only [Bool.and_eq_true, decide_eq_true_eq] at hc2
          tauto
        · exact Option.noConfusion hp
      · exact Option.noConfusion hp
    · exact Option.noConfusion hp
  obtain ⟨hm1, hm2, hd1a, hd2a⟩ := hbound
  have hciv := civil_roundtrip y m d hm1 hm2 hd1a hd2a
  subst hj
  have hfd : Int.fdiv (86400000 * ((daysFromCivilShifted y m d : Int) -
      (epochShift : Int))) 86400000 =
      (daysFromCivilShifted y m d : Int) - (epochShift : Int) :=
    Int.mul_fdiv_cancel_left _ (by norm_num)
  have hcomp : jsUTCComponents (86400000 * ((daysFromCivilShifted y m d : Int) -
      (epochShift : Int))) = (y + 400, m, d) := by
    unfold jsUTCComponents
    rw [hfd]
    rw [show (daysFromCivilShifted y m d : Int) - (epochShift : Int) +
      (epochShift : Int) = (daysFromCivilShifted y m d : Int) from by omega]
    rw [Int.toNat_natCast]
    exact hciv
  refine ⟨?_, ?_, ?_⟩
  · unfold getUTCFullYear
    rw [hcomp]
    push_cast
    ring
  · unfold getUTCMonth
    rw [hcomp]
  · unfold getUTCDate
    rw [hcomp]

theorem c4_date_utc_witness :
    getUTCFullYear 1518480000000 = ((2018 : Nat) : Int) ∧
    getUTCMonth 1518480000000 = 2 - 1 ∧ getUTCDate 1518480000000 = 13 :=
  c4_date_utc.1 "2018-02-13" 2018 2 13 1518480000000 (by decide) (by decide)

end OpenAlex
